import Mathlib

/-!
Shallow embedding of the access gate and draw.io rendering helpers of
`app.py` (a Streamlit portfolio page), together with theorems checking the
natural-language specification against them.

Documents are modelled as `List Char`.  The Python regular expressions used
by the source are embedded either directly (the `<head[^>]*>` substitution
of `_inject_base_tag`, compiled by hand into a deterministic scanner with
the same leftmost semantics) or through a small backtracking regex engine
with Python's leftmost-then-greedy semantics (`_extract_mxgraph_div`).
-/

namespace Portfolio

/-- ASCII lowercasing of a document, Python `str.lower` on the relevant
alphabet. -/
def lowerL (s : List Char) : List Char := s.map Char.toLower

/-- Python `pat in s` substring test. -/
def containsSub (pat : List Char) : List Char → Bool
  | [] => pat.isEmpty
  | c :: t => pat.isPrefixOf (c :: t) || containsSub pat t

/-! ### `_inject_base_tag` -/

/-- Split a string at its first `>` character, keeping the `>` on the left
part: this is how the greedy `[^>]*>` tail of the pattern `<head[^>]*>`
consumes input once `<head` has matched. -/
def splitAtGt : List Char → Option (List Char × List Char)
  | [] => none
  | c :: t =>
    if c = '>' then some ([c], t)
    else
      match splitAtGt t with
      | some (a, b) => some (c :: a, b)
      | none => none

def headOpenLit : List Char := ("<head").data

/-- The replacement text inserted by `_inject_base_tag` right after the
matched group `\1`. -/
def baseTagIns : List Char := ("<base href=\"https://viewer.diagrams.net/\">").data

/-- Match of the pattern `<head[^>]*>` (with `re.I`) anchored at the front
of `s`: returns the matched text and the remaining input. -/
def headPatAt (s : List Char) : Option (List Char × List Char) :=
  if lowerL (s.take 5) = headOpenLit then
    match splitAtGt (s.drop 5) with
    | some (a, b) => some (s.take 5 ++ a, b)
    | none => none
  else none

/-- `re.sub(r"(<head[^>]*>)", r"\1<base href=...>", doc, count=1, flags=re.I)`:
scan left to right for the first match of `<head[^>]*>` and insert the base
tag right after it; `none` when the pattern does not occur. -/
def injectAfterHead : List Char → Option (List Char)
  | [] => none
  | c :: t =>
    match headPatAt (c :: t) with
    | some (m, rest) => some (m ++ baseTagIns ++ rest)
    | none => Option.map (fun r => c :: r) (injectAfterHead t)

/-- The guard `"<base " in doc.lower()` of `_inject_base_tag`. -/
def hasBaseMarker (doc : List Char) : Bool :=
  containsSub (("<base ").data) (lowerL doc)

/-- `_inject_base_tag` from `app.py`. -/
def inject_base_tag (doc : List Char) : List Char :=
  if hasBaseMarker doc then doc
  else
    match injectAfterHead doc with
    | some r => r
    | none => doc

/-- Decidable test: the pattern `<head[^>]*>` matches at the front of `s`
(`<head`, case-insensitively, with some `>` later on). -/
def headPatHere (s : List Char) : Bool :=
  decide (lowerL (s.take 5) = headOpenLit) && (s.drop 5).any (fun c => decide (c = '>'))

/-- The pattern `<head[^>]*>` matches somewhere in `s`. -/
def hasHeadPat : List Char → Bool
  | [] => false
  | c :: t => headPatHere (c :: t) || hasHeadPat t

/-- An HTML opening head tag (`<head` followed by `>`, whitespace or `/`)
starts at the front of `s`.  This is the notion the specification's words
refer to; it is strictly narrower than the pattern `<head[^>]*>`, which
also matches tags such as `<header>`. -/
def isHtmlHeadHere (s : List Char) : Bool :=
  decide (lowerL (s.take 5) = headOpenLit) &&
    (match s.drop 5 with
     | [] => false
     | c :: _ =>
       decide (c = '>') || decide (c = ' ') || decide (c = '/') ||
         decide (c = Char.ofNat 9) || decide (c = Char.ofNat 10) || decide (c = Char.ofNat 13))

/-- The document contains an HTML opening head tag. -/
def hasHtmlHeadOpen : List Char → Bool
  | [] => false
  | c :: t => isHtmlHeadHere (c :: t) || hasHtmlHeadOpen t

/-- An HTML base tag (`<base` followed by `>`, whitespace or `/`) starts at
the front of `s`. -/
def isBaseTagHere (s : List Char) : Bool :=
  decide (lowerL (s.take 5) = ("<base").data) &&
    (match s.drop 5 with
     | [] => false
     | c :: _ =>
       decide (c = '>') || decide (c = ' ') || decide (c = '/') ||
         decide (c = Char.ofNat 9) || decide (c = Char.ofNat 10) || decide (c = Char.ofNat 13))

/-- Number of HTML base tags occurring in the document. -/
def baseTagCount : List Char → Nat
  | [] => 0
  | c :: t => (if isBaseTagHere (c :: t) then 1 else 0) + baseTagCount t

/-! ### `_extract_mxgraph_div`

A small regex engine with Python's backtracking semantics (alternatives
tried left to right, `*` greedy, leftmost match wins), sufficient for the
pattern of `_extract_mxgraph_div`.  `re.I` is reflected by comparing
lowercased characters in `chr`; the character classes of the pattern
(`[^>]`, `[^"]`, `[^']`) contain no letters, so `re.I` is immaterial for
`nCls`. -/

inductive RE : Type where
  | eps : RE
  | chr : Char → RE
  | nCls : List Char → RE
  | seq : RE → RE → RE
  | alt : RE → RE → RE
  | star : RE → RE

def reSize : RE → Nat
  | RE.eps => 1
  | RE.chr _ => 1
  | RE.nCls _ => 1
  | RE.seq a b => reSize a + reSize b + 1
  | RE.alt a b => reSize a + reSize b + 1
  | RE.star r => reSize r + 1

/-- Fueled backtracking matcher in continuation-passing style.  Returns the
remaining input after the first successful parse in Python's exploration
order (greedy `star` first, `alt` left first). -/
def reMatchF : Nat → RE → List Char → (List Char → Option (List Char)) → Option (List Char)
  | 0, _, _, _ => none
  | _ + 1, RE.eps, s, k => k s
  | _ + 1, RE.chr c, s, k =>
    match s with
    | [] => none
    | d :: rest => if d.toLower = c.toLower then k rest else none
  | _ + 1, RE.nCls cs, s, k =>
    match s with
    | [] => none
    | d :: rest => if d ∈ cs then none else k rest
  | n + 1, RE.seq a b, s, k => reMatchF n a s (fun s2 => reMatchF n b s2 k)
  | n + 1, RE.alt a b, s, k =>
    match reMatchF n a s k with
    | some r => some r
    | none => reMatchF n b s k
  | n + 1, RE.star r, s, k =>
    match reMatchF n r s
        (fun s2 => if s2.length < s.length then reMatchF n (RE.star r) s2 k else none) with
    | some res => some res
    | none => k s

/-- Attempt a match anchored at the front of `s`, with fuel generous enough
for the pattern sizes and inputs at hand (every starred subpattern of the
embedded patterns consumes at least one character per iteration). -/
def tryMatch (r : RE) (s : List Char) : Option (List Char) :=
  reMatchF ((reSize r + 1) * (s.length + 2)) r s some

/-- `re.search`: try the anchored match at each position, left to right;
return the matched text. -/
def searchFrom (r : RE) : List Char → Option (List Char)
  | [] =>
    match tryMatch r [] with
    | some _ => some []
    | none => none
  | c :: t =>
    match tryMatch r (c :: t) with
    | some rest => some ((c :: t).take ((c :: t).length - rest.length))
    | none => searchFrom r t

/-- A literal word of the pattern (each letter case-insensitive, per `re.I`). -/
def litRE (cs : List Char) : RE :=
  cs.foldr (fun c acc => RE.seq (RE.chr c) acc) RE.eps

def dqChar : Char := Char.ofNat 34

def sqChar : Char := Char.ofNat 39

def bslash : Char := Char.ofNat 92

def nonGt : RE := RE.nCls ['>']

/-- What the source's raw string `\\bmxgraph\\b` denotes as a regex: a
literal backslash, a literal `b`, the word `mxgraph`, a literal backslash,
a literal `b`.  (In a Python raw string, `\\` stays two characters, so the
regex engine sees the escape `\\` — a literal backslash — followed by a
plain `b`, not the word-boundary assertion `\b`.) -/
def mxLit : List Char := [bslash, 'b'] ++ ("mxgraph").data ++ [bslash, 'b']

/-- `q[^q]*\bmxgraph\b[^q]*q` with the literal-backslash reading above. -/
def quotedClassRE (q : Char) : RE :=
  RE.seq (RE.chr q)
    (RE.seq (RE.star (RE.nCls [q]))
      (RE.seq (litRE mxLit)
        (RE.seq (RE.star (RE.nCls [q])) (RE.chr q))))

/-- `q[^q]*q`. -/
def quotedAnyRE (q : Char) : RE :=
  RE.seq (RE.chr q) (RE.seq (RE.star (RE.nCls [q])) (RE.chr q))

/-- The full pattern of `_extract_mxgraph_div`:
`<div[^>]*class=(?:"[^"]*\\bmxgraph\\b[^"]*"|'[^']*\\bmxgraph\\b[^']*')`
`[^>]*data-mxgraph=(?:"[^"]*"|'[^']*')[^>]*>\\s*</div>`
with `re.S | re.I`; the doubled backslashes come verbatim from the source's
raw strings and therefore denote literal backslashes. -/
def mxPat : RE :=
  RE.seq (litRE (("<div").data))
  (RE.seq (RE.star nonGt)
  (RE.seq (litRE (("class=").data))
  (RE.seq (RE.alt (quotedClassRE dqChar) (quotedClassRE sqChar))
  (RE.seq (RE.star nonGt)
  (RE.seq (litRE (("data-mxgraph=").data))
  (RE.seq (RE.alt (quotedAnyRE dqChar) (quotedAnyRE sqChar))
  (RE.seq (RE.star nonGt)
  (RE.seq (RE.chr '>')
  (RE.seq (RE.chr bslash)
  (RE.seq (RE.star (RE.chr 's'))
  (litRE (("</div>").data))))))))))))

/-- `_extract_mxgraph_div` from `app.py`: leftmost search for the pattern,
returning the matched group (the whole match) when found. -/
def extract_mxgraph_div (html_text : List Char) : Option (List Char) :=
  searchFrom mxPat html_text

/-! ### Access gate -/

/-- The module-level credential configuration: `ACCESS_CODE_HASH` and
`ACCESS_CODE`, each possibly empty (Python falsy). -/
structure Config where
  access_code_hash : List Char
  access_code : List Char
deriving DecidableEq

/-- Observable outcome of `verify_code`: the returned boolean, the value
stored into `st.session_state["authed"]`, and whether the configuration
error was reported via `st.error`. -/
structure VerifyOut where
  result : Bool
  authed : Bool
  config_error : Bool
deriving DecidableEq

/-- Observable outcome of `is_authed`: the returned boolean, the session
`authed` entry afterwards (`none` when never set), and whether a
configuration error was reported. -/
structure AuthOut where
  result : Bool
  sess : Option Bool
  config_error : Bool
deriving DecidableEq

/-- `verify_code` from `app.py`.  `cpw` stands for the external
`bcrypt.checkpw`; `none` models the raised-exception case, which the source
converts to `False`.  `hmac.compare_digest` on strings is extensional
equality. -/
def verify_code (cfg : Config) (cpw : List Char → List Char → Option Bool)
    (code : List Char) : VerifyOut :=
  if cfg.access_code_hash ≠ [] then
    let ok := (cpw code cfg.access_code_hash).getD false
    ⟨ok, ok, false⟩
  else if cfg.access_code ≠ [] then
    let ok := decide (code = cfg.access_code)
    ⟨ok, ok, false⟩
  else ⟨false, false, true⟩

/-- `is_authed` from `app.py`.  `qp_code` is the `code` entry of
`st.experimental_get_query_params()` (`none` when the key is absent; the
value is a list of strings, Python-truthy iff nonempty); `sess` is the
current session `authed` entry, truthy iff `some true`. -/
def is_authed (cfg : Config) (cpw : List Char → List Char → Option Bool)
    (qp_code : Option (List (List Char))) (sess : Option Bool) : AuthOut :=
  if sess = some true then ⟨true, sess, false⟩
  else
    match qp_code with
    | some (c :: _) =>
      let v := verify_code cfg cpw c
      ⟨v.result, some v.authed, v.config_error⟩
    | _ => ⟨false, sess, false⟩

/-! ### `render_drawio` -/

/-- The document handed to `streamlit.components.v1.html` together with its
`height` and `scrolling` keyword arguments. -/
structure Rendered where
  html : List Char
  height : Int
  scrolling : Bool
deriving DecidableEq

/-- The f-string wrapper of `render_drawio` around an extracted mxgraph
div (`{{`/`}}` of the source denote literal braces, written `\x7b`/`\x7d`
here). -/
def wrapperDoc (mx : List Char) : List Char :=
  ("<!doctype html>\n<html>\n<head>\n<meta charset=\"utf-8\">\n<base href=\"https://viewer.diagrams.net/\">\n<script src=\"https://viewer.diagrams.net/js/viewer-static.min.js\"></script>\n<style>html,body,#holder\x7bheight:100%;margin:0\x7d #holder>div\x7bheight:100%\x7d</style>\n</head>\n<body>\n  <div id=\"holder\">").data
    ++ mx ++ ("</div>\n</body>\n</html>").data

/-- `render_drawio` from `app.py`.  The file read is modelled by `content`
(`none`: file absent, or `read_text` raised — the source returns `False`,
here `none`).  On success the document passed to `html_component` is
returned together with the `height` and `scrolling` arguments used; note
the source hard-codes `scrolling=True` on the fallback branch. -/
def render_drawio (content : Option (List Char)) (height : Int) (scrolling : Bool) :
    Option Rendered :=
  match content with
  | none => none
  | some raw =>
    match extract_mxgraph_div raw with
    | some mx => some ⟨wrapperDoc mx, height, scrolling⟩
    | none => some ⟨inject_base_tag raw, height, true⟩

/-! ### Helper lemmas about the `<head[^>]*>` substitution -/

theorem splitAtGt_eq_none (s : List Char) :
    splitAtGt s = none ↔ s.any (fun c => decide (c = '>')) = false := by
  induction s with
  | nil => simp [splitAtGt]
  | cons c t ih =>
    by_cases hc : c = '>'
    · subst hc
      simp [splitAtGt]
    · cases hsplit : splitAtGt t with
      | none =>
        have hany : (t.any fun x => decide (x = '>')) = false := ih.mp hsplit
        simp [splitAtGt, hc, hsplit, hany]
      | some p =>
        obtain ⟨a, b⟩ := p
        have hany : (t.any fun x => decide (x = '>')) = true := by
          rcases Bool.eq_false_or_eq_true (t.any fun x => decide (x = '>')) with h | h
          · exact h
          · exact absurd (ih.mpr h) (by simp [hsplit])
        simp [splitAtGt, hc, hsplit, hany]

theorem splitAtGt_eq_some (l : List Char) :
    ∀ a b, splitAtGt l = some (a, b) → l = a ++ b := by
  induction l with
  | nil => intro a b h; simp [splitAtGt] at h
  | cons c t ih =>
    intro a b h
    by_cases hc : c = '>'
    · subst hc
      simp [splitAtGt] at h
      obtain ⟨rfl, rfl⟩ := h
      rfl
    · cases hsplit : splitAtGt t with
      | none => simp [splitAtGt, hc, hsplit] at h
      | some p =>
        obtain ⟨a', b'⟩ := p
        simp [splitAtGt, hc, hsplit] at h
        obtain ⟨rfl, rfl⟩ := h
        simp [ih a' b' hsplit]

theorem headPatAt_none_iff (s : List Char) :
    headPatAt s = none ↔ headPatHere s = false := by
  unfold headPatAt headPatHere
  by_cases hl : lowerL (s.take 5) = headOpenLit
  · cases hsplit : splitAtGt (s.drop 5) with
    | none =>
      have hany := (splitAtGt_eq_none (s.drop 5)).mp hsplit
      simp [hl, hsplit, hany]
    | some p =>
      obtain ⟨a, b⟩ := p
      have hany : ((s.drop 5).any fun x => decide (x = '>')) = true := by
        rcases Bool.eq_false_or_eq_true ((s.drop 5).any fun x => decide (x = '>')) with h | h
        · exact h
        · exact absurd ((splitAtGt_eq_none (s.drop 5)).mpr h) (by simp [hsplit])
      simp [hl, hsplit, hany]
  · simp [hl]

theorem headPatAt_eq_some (s m rest : List Char) (h : headPatAt s = some (m, rest)) :
    s = m ++ rest ∧ headPatAt (m ++ rest) = some (m, rest) := by
  have hs : s = m ++ rest := by
    unfold headPatAt at h
    by_cases hl : lowerL (s.take 5) = headOpenLit
    · rw [if_pos hl] at h
      cases hsplit : splitAtGt (s.drop 5) with
      | none => rw [hsplit] at h; cases h
      | some p =>
        obtain ⟨a, b⟩ := p
        rw [hsplit] at h
        have ha := splitAtGt_eq_some (s.drop 5) a b hsplit
        simp only [Option.some.injEq, Prod.mk.injEq] at h
        obtain ⟨h1, h2⟩ := h
        subst h1; subst h2
        conv_lhs => rw [← List.take_append_drop 5 s]
        rw [ha, List.append_assoc]
    · rw [if_neg hl] at h; cases h
  exact ⟨hs, hs ▸ h⟩

theorem injectAfterHead_none_iff (s : List Char) :
    injectAfterHead s = none ↔ hasHeadPat s = false := by
  induction s with
  | nil => simp [injectAfterHead, hasHeadPat]
  | cons c t ih =>
    cases hp : headPatAt (c :: t) with
    | some p =>
      obtain ⟨m, rest⟩ := p
      have hh : headPatHere (c :: t) = true := by
        rcases Bool.eq_false_or_eq_true (headPatHere (c :: t)) with h | h
        · exact h
        · exact absurd ((headPatAt_none_iff _).mpr h) (by simp [hp])
      simp [injectAfterHead, hasHeadPat, hp, hh]
    | none =>
      have hh : headPatHere (c :: t) = false := (headPatAt_none_iff _).mp hp
      simp [injectAfterHead, hasHeadPat, hp, hh, ih]

theorem injectAfterHead_eq_some (s : List Char) :
    ∀ r, injectAfterHead s = some r →
      ∃ u m rest, s = u ++ m ++ rest ∧ r = u ++ m ++ baseTagIns ++ rest ∧
        headPatAt (m ++ rest) = some (m, rest) ∧
        ∀ w, w <:+ s → (m ++ rest).length < w.length → headPatHere w = false := by
  induction s with
  | nil => intro r h; simp [injectAfterHead] at h
  | cons c t ih =>
    intro r h
    cases hp : headPatAt (c :: t) with
    | some p =>
      obtain ⟨m, rest⟩ := p
      obtain ⟨hs, hs2⟩ := headPatAt_eq_some (c :: t) m rest hp
      have hr : r = m ++ baseTagIns ++ rest := by
        simp only [injectAfterHead, hp, Option.some.injEq] at h
        exact h.symm
      refine ⟨[], m, rest, by simpa using hs, by simpa using hr, hs2, ?_⟩
      intro w hw hlen
      exfalso
      have hle : w.length ≤ (c :: t).length := hw.length_le
      rw [hs] at hle
      omega
    | none =>
      simp only [injectAfterHead, hp] at h
      cases hrec : injectAfterHead t with
      | none => rw [hrec] at h; simp at h
      | some r' =>
        rw [hrec] at h
        simp only [Option.map_some', Option.some.injEq] at h
        obtain ⟨u, m, rest, h1, h2, h3, h4⟩ := ih r' hrec
        refine ⟨c :: u, m, rest, by simp [h1], ?_, h3, ?_⟩
        · rw [← h]
          simp [h2]
        · intro w hw hlen
          rcases List.suffix_cons_iff.mp hw with hweq | hw'
          · subst hweq
            exact (headPatAt_none_iff _).mp hp
          · exact h4 w hw' hlen

/-! ### Claim C1 -/

/-- C1: with neither `ACCESS_CODE_HASH` nor `ACCESS_CODE` configured,
`verify_code` reports the configuration error (`st.error`), stores `False`
into the session flag, and returns `False` for every submitted code —
fail-closed, for any behaviour of the external hash comparison. -/
theorem verify_code_fail_closed (cpw : List Char → List Char → Option Bool)
    (code : List Char) :
    verify_code ⟨[], []⟩ cpw code = ⟨false, false, true⟩ := rfl

/-! ### Claim C2 -/

def mxPlainInput : List Char :=
  ("<div class=\"mxgraph\" data-mxgraph=\"abc\"></div>").data

def mxEscInput : List Char :=
  ("<div class=\"\\bmxgraph\\b\" data-mxgraph=\"abc\">\\</div>").data

/-- C2: the extraction regex of `_extract_mxgraph_div` never matches a real
`<div class="mxgraph" data-mxgraph="...">...</div>` container.  The doubled
backslashes of the source's raw strings (`\\b`, `\\s`) denote literal
backslashes, so the pattern demands the literal text `\bmxgraph\b` inside
the class value and a literal backslash between `>` and `</div>`.  On the
plain container extraction fails and `render_drawio` falls through to the
full-document branch; the backslash-laden variant, which no diagram export
produces, is the shape that gets extracted. -/
theorem extract_mxgraph_requires_literal_backslashes :
    extract_mxgraph_div mxPlainInput = none ∧
    render_drawio (some mxPlainInput) 640 false = some ⟨mxPlainInput, 640, true⟩ ∧
    extract_mxgraph_div mxEscInput = some mxEscInput := ⟨rfl, rfl, rfl⟩

/-! ### Claim C3 -/

def ifrInput : List Char :=
  ("<iframe src=\"https://viewer.diagrams.net/?x\" style=\"border:0;\" width=\"800\" height=\"600\"></iframe>").data

/-- C3 counterexample: an asset that is exactly a hosted-viewer iframe with
inline `style`/`width`/`height` attributes is embedded byte-for-byte
unchanged: the attributes are still present, no `100%` sizing rule is
introduced, and no frame extraction happens — contradicting the claim that
`render` strips the sizing attributes and applies a fill rule. -/
theorem render_viewer_iframe_not_stripped :
    render_drawio (some ifrInput) 640 false = some ⟨ifrInput, 640, true⟩ ∧
    containsSub (("width=\"800\"").data) ifrInput = true ∧
    containsSub (("style=\"border:0;\"").data) ifrInput = true ∧
    containsSub (("width:100%").data) ifrInput = false := ⟨rfl, rfl, rfl, rfl⟩

/-- C3 (amended): `render_drawio` has no hosted-viewer-iframe branch.  Any
content the extraction regex does not match and that contains neither the
`<base ` marker nor a `<head[^>]*>` match — in particular a bare hosted
viewer iframe with inline sizing attributes — is passed through unchanged,
sizing attributes retained, and embedded with scrolling forced on. -/
theorem render_unmatched_passthrough (raw : List Char) (ht : Int) (sc : Bool)
    (hx : extract_mxgraph_div raw = none) (hb : hasBaseMarker raw = false)
    (hh : hasHeadPat raw = false) :
    render_drawio (some raw) ht sc = some ⟨raw, ht, true⟩ := by
  have hn : injectAfterHead raw = none := (injectAfterHead_none_iff raw).mpr hh
  simp [render_drawio, hx, inject_base_tag, hb, hn]

/-- C3 witness: the passthrough theorem applied to the concrete iframe
asset. -/
theorem render_unmatched_passthrough_witness :
    render_drawio (some ifrInput) 640 false = some ⟨ifrInput, 640, true⟩ :=
  render_unmatched_passthrough ifrInput 640 false rfl rfl rfl

/-! ### Claim C4 -/

/-- C4: `render_drawio` returns `NotFound` (`none`) exactly when the asset
could not be read; once content was read it never fails — every branch
yields some document — and when no recognised shape matches, the raw
content passes through with only the base-tag repair applied. -/
theorem render_total (content : Option (List Char)) (ht : Int) (sc : Bool) :
    (render_drawio content ht sc = none ↔ content = none) ∧
    (∀ raw, content = some raw → extract_mxgraph_div raw = none →
      render_drawio content ht sc = some ⟨inject_base_tag raw, ht, true⟩) := by
  constructor
  · cases content with
    | none => simp [render_drawio]
    | some raw => cases hx : extract_mxgraph_div raw <;> simp [render_drawio, hx]
  · rintro raw rfl hx
    simp [render_drawio, hx]

def plainAsset : List Char := ("just some plain text").data

/-- C4 witness: the totality theorem applied to plain-text content. -/
theorem render_total_witness :
    render_drawio (some plainAsset) 640 false =
      some ⟨inject_base_tag plainAsset, 640, true⟩ :=
  (render_total (some plainAsset) 640 false).2 plainAsset rfl rfl

/-! ### Claim C5 -/

def bareBaseDoc : List Char :=
  ("<html><head><base></head><body></body></html>").data

/-- C5 counterexample: a document that already contains a base tag, written
bare as `<base>`, is not detected by the `"<base " in doc.lower()` guard
(which requires a trailing space); `_inject_base_tag` inserts a second base
tag and the document's base-tag count rises from one to two, contradicting
the claim that the count stays one. -/
theorem inject_base_tag_duplicates_bare_base :
    baseTagCount bareBaseDoc = 1 ∧
    baseTagCount (inject_base_tag bareBaseDoc) = 2 := ⟨rfl, rfl⟩

def fullDocNoBase : List Char := ("<html><head></head><body></body></html>").data

/-- C5 (amended): a document containing the marker `<base ` (with trailing
space, case-insensitive, anywhere) is returned unchanged; a document
without the marker whose text matches `<head[^>]*>` receives exactly one
insertion of the base-tag string, immediately after the first (leftmost)
match — no suffix longer than the remainder starting at the match begins a
match of its own.  A base tag written bare as `<base>` lacks the marker, so
such a document receives a duplicate (see the counterexample). -/
theorem inject_base_tag_insert_once (doc : List Char) :
    (hasBaseMarker doc = true → inject_base_tag doc = doc) ∧
    (hasBaseMarker doc = false → hasHeadPat doc = true →
      ∃ u m rest, doc = u ++ m ++ rest ∧
        inject_base_tag doc = u ++ m ++ baseTagIns ++ rest ∧
        headPatAt (m ++ rest) = some (m, rest) ∧
        ∀ w, w <:+ doc → (m ++ rest).length < w.length → headPatHere w = false) := by
  constructor
  · intro hb; simp [inject_base_tag, hb]
  · intro hb hh
    cases hr : injectAfterHead doc with
    | none =>
      rw [injectAfterHead_none_iff] at hr
      simp [hr] at hh
    | some r =>
      obtain ⟨u, m, rest, h1, h2, h3, h4⟩ := injectAfterHead_eq_some doc r hr
      exact ⟨u, m, rest, h1, by simp [inject_base_tag, hb, hr, h2], h3, h4⟩

/-- C5 witness: the insertion theorem applied to a concrete full document
with a head tag and no base tag. -/
theorem inject_base_tag_insert_once_witness :
    ∃ u m rest, fullDocNoBase = u ++ m ++ rest ∧
      inject_base_tag fullDocNoBase = u ++ m ++ baseTagIns ++ rest ∧
      headPatAt (m ++ rest) = some (m, rest) ∧
      ∀ w, w <:+ fullDocNoBase → (m ++ rest).length < w.length → headPatHere w = false :=
  (inject_base_tag_insert_once fullDocNoBase).2 rfl rfl

/-! ### Claim C6 -/

def noScriptDoc : List Char :=
  ("<html><head></head><body>content</body></html>").data

def viewerScriptRef : List Char := ("viewer-static.min.js").data

/-- C6 counterexample: a full document lacking the viewer script reference
is embedded with only the base tag injected; the returned document still
contains no reference to `viewer-static.min.js`, contradicting the claim
that `render` appends the script reference so the result always carries
it. -/
theorem render_no_viewer_script_appended :
    render_drawio (some noScriptDoc) 640 false =
      some ⟨("<html><head><base href=\"https://viewer.diagrams.net/\"></head><body>content</body></html>").data,
        640, true⟩ ∧
    containsSub viewerScriptRef (inject_base_tag noScriptDoc) = false := ⟨rfl, rfl⟩

/-- C6 (amended): the full-document branch never appends the viewer
script: `_inject_base_tag` either returns the document unchanged or inserts
exactly the base-tag string `baseTagIns`, which contains no
`viewer-static.min.js` reference — so the fallback output references the
viewer script only when the input already did.  (The script reference
appears only in the wrapper shell of the extracted-fragment branch.) -/
theorem inject_base_tag_no_script (doc : List Char) :
    (inject_base_tag doc = doc ∨
      ∃ u m rest, doc = u ++ m ++ rest ∧
        inject_base_tag doc = u ++ m ++ baseTagIns ++ rest) ∧
    containsSub viewerScriptRef baseTagIns = false := by
  constructor
  · rcases Bool.eq_false_or_eq_true (hasBaseMarker doc) with hb | hb
    · left; simp [inject_base_tag, hb]
    · cases hr : injectAfterHead doc with
      | none => left; simp [inject_base_tag, hb, hr]
      | some r =>
        right
        obtain ⟨u, m, rest, h1, h2, _, _⟩ := injectAfterHead_eq_some doc r hr
        exact ⟨u, m, rest, h1, by simp [inject_base_tag, hb, hr, h2]⟩
  · rfl

/-! ### Claim C7 -/

/-- C7 counterexample: with plaintext secret `pw` configured, a successful
`verify_code "pw"` returns `True` and stores `True` in the session flag,
but a later `verify_code "x"` in the same session stores `False`: a failed
re-verification unsets the flag, contradicting the claim that no later
verify call (including one with a wrong code) unsets it. -/
theorem verify_code_overwrites_flag :
    (verify_code ⟨[], ("pw").data⟩ (fun _ _ => none) (("pw").data)).result = true ∧
    (verify_code ⟨[], ("pw").data⟩ (fun _ _ => none) (("pw").data)).authed = true ∧
    (verify_code ⟨[], ("pw").data⟩ (fun _ _ => none) (("x").data)).authed = false :=
  ⟨rfl, rfl, rfl⟩

/-- C7 (amended): the session flag persists across `is_authed` calls — an
authorized session short-circuits, returning `True` with the flag and error
state untouched, whatever the query parameters — but every `verify_code`
call overwrites the flag with its own outcome, so a later failed
verification (which the page's gate never issues once authorized) unsets
it; there is no expiry. -/
theorem auth_flag_semantics (cfg : Config) (cpw : List Char → List Char → Option Bool)
    (qp_code : Option (List (List Char))) (code : List Char) :
    is_authed cfg cpw qp_code (some true) = ⟨true, some true, false⟩ ∧
    (verify_code cfg cpw code).authed = (verify_code cfg cpw code).result := by
  refine ⟨rfl, ?_⟩
  unfold verify_code
  split
  · rfl
  · split
    · rfl
    · rfl

/-! ### Claim C8 -/

/-- C8: a code arriving via the `code` query parameter is routed through
`verify_code` itself: whenever the session is not yet authorized and the
parameter is present and nonempty, `is_authed` returns exactly
`verify_code`'s result on the first parameter value, stores exactly the
flag `verify_code` stores, and surfaces exactly its configuration error —
the same function with the same side effects, no separate path. -/
theorem is_authed_url_code_same_path (cfg : Config)
    (cpw : List Char → List Char → Option Bool) (c : List Char)
    (cs : List (List Char)) (sess : Option Bool) (hs : sess ≠ some true) :
    is_authed cfg cpw (some (c :: cs)) sess =
      ⟨(verify_code cfg cpw c).result, some (verify_code cfg cpw c).authed,
        (verify_code cfg cpw c).config_error⟩ := by
  simp [is_authed, hs]

/-- C8 witness: the routing theorem applied to a fresh session and the
query parameter `code=pw`. -/
theorem is_authed_url_code_same_path_witness :
    is_authed ⟨[], ("pw").data⟩ (fun _ _ => none) (some [("pw").data]) none =
      ⟨(verify_code ⟨[], ("pw").data⟩ (fun _ _ => none) (("pw").data)).result,
        some (verify_code ⟨[], ("pw").data⟩ (fun _ _ => none) (("pw").data)).authed,
        (verify_code ⟨[], ("pw").data⟩ (fun _ _ => none) (("pw").data)).config_error⟩ :=
  is_authed_url_code_same_path ⟨[], ("pw").data⟩ (fun _ _ => none) (("pw").data) [] none
    (by decide)

/-! ### Claim C9 -/

def plainContent : List Char := ("hello world").data

/-- C9 counterexample: for pass-through content the caller requests
`scrolling := false`, yet the document is embedded with `scrolling = true`:
the fallback branch of `render_drawio` hard-codes `scrolling=True`,
ignoring the caller's flag. -/
theorem render_scroll_flag_ignored :
    render_drawio (some plainContent) 640 false = some ⟨plainContent, 640, true⟩ ∧
    Option.map Rendered.scrolling (render_drawio (some plainContent) 640 false) ≠
      some false := by
  refine ⟨rfl, ?_⟩
  decide

/-- C9 (amended): the requested height is passed through on every branch,
but the requested scroll flag is honored only on the extracted-fragment
branch; the fallback branch always embeds with `scrolling = true`. -/
theorem render_height_scroll (raw : List Char) (ht : Int) (sc : Bool) :
    (∀ mx, extract_mxgraph_div raw = some mx →
      render_drawio (some raw) ht sc = some ⟨wrapperDoc mx, ht, sc⟩) ∧
    (extract_mxgraph_div raw = none →
      render_drawio (some raw) ht sc = some ⟨inject_base_tag raw, ht, true⟩) := by
  constructor
  · intro mx hx; simp [render_drawio, hx]
  · intro hx; simp [render_drawio, hx]

/-- C9 witness: the branch theorem applied to pass-through content with a
caller-requested height of 777. -/
theorem render_height_scroll_witness :
    render_drawio (some plainContent) 777 false =
      some ⟨inject_base_tag plainContent, 777, true⟩ :=
  (render_height_scroll plainContent 777 false).2 rfl

/-! ### Claim C10 -/

def headerFragment : List Char := ("<header>x</header>").data

/-- C10 counterexample: `<header>x</header>` contains no opening `<head>`
tag (and no base marker), yet `_inject_base_tag` changes it: the pattern
`<head[^>]*>` also matches the `<header>` tag, so the base tag is inserted
right after `<header>` — contradicting the claim that documents with no
opening head tag are returned entirely unchanged. -/
theorem inject_base_tag_changes_header_fragment :
    hasHtmlHeadOpen headerFragment = false ∧
    hasBaseMarker headerFragment = false ∧
    inject_base_tag headerFragment =
      ("<header><base href=\"https://viewer.diagrams.net/\">x</header>").data ∧
    inject_base_tag headerFragment ≠ headerFragment := by
  refine ⟨rfl, rfl, rfl, ?_⟩
  decide

/-- C10 (amended): `_inject_base_tag` returns the document unchanged when
the substring `<base ` occurs case-insensitively anywhere (even in body
text or a comment), and when the text matches `<head[^>]*>` nowhere — a
pattern that also matches tags whose name merely starts with `head`, such
as `<header>`, so "no opening head tag" is not quite the unchanged
condition; in all other cases it performs exactly one insertion of the
base-tag string, immediately after the first (leftmost) match of that
pattern. -/
theorem inject_base_tag_characterization (doc : List Char) :
    (hasBaseMarker doc = true → inject_base_tag doc = doc) ∧
    (hasHeadPat doc = false → inject_base_tag doc = doc) ∧
    (hasBaseMarker doc = false → hasHeadPat doc = true →
      ∃ u m rest, doc = u ++ m ++ rest ∧
        inject_base_tag doc = u ++ m ++ baseTagIns ++ rest ∧
        headPatAt (m ++ rest) = some (m, rest) ∧
        ∀ w, w <:+ doc → (m ++ rest).length < w.length → headPatHere w = false) := by
  refine ⟨?_, ?_, ?_⟩
  · intro hb; simp [inject_base_tag, hb]
  · intro hh
    have hn : injectAfterHead doc = none := (injectAfterHead_none_iff doc).mpr hh
    rcases Bool.eq_false_or_eq_true (hasBaseMarker doc) with hb | hb <;>
      simp [inject_base_tag, hb, hn]
  · intro hb hh
    cases hr : injectAfterHead doc with
    | none =>
      rw [injectAfterHead_none_iff] at hr
      simp [hr] at hh
    | some r =>
      obtain ⟨u, m, rest, h1, h2, h3, h4⟩ := injectAfterHead_eq_some doc r hr
      exact ⟨u, m, rest, h1, by simp [inject_base_tag, hb, hr, h2], h3, h4⟩

def headDocC10 : List Char := ("<head><title>t</title></head>").data

/-- C10 witness: the characterization applied to a concrete head fragment
without a base marker. -/
theorem inject_base_tag_characterization_witness :
    ∃ u m rest, headDocC10 = u ++ m ++ rest ∧
      inject_base_tag headDocC10 = u ++ m ++ baseTagIns ++ rest ∧
      headPatAt (m ++ rest) = some (m, rest) ∧
      ∀ w, w <:+ headDocC10 → (m ++ rest).length < w.length → headPatHere w = false :=
  (inject_base_tag_characterization headDocC10).2.2 rfl rfl

end Portfolio
